import Mathlib

/-!
Verification of the Fortress-System check-orchestration and adaptive-scoring
engine (a JavaScript quality-gate CLI), as a shallow embedding in Lean 4.

Embedding conventions:
* JS numbers that the program only ever uses at integer values (weights,
  counts, durations) are `Nat`/`Int`; `result.score` values flow through
  `Math.round` on a quotient, so scores are `Rat` and `Math.round` is
  `jsRound` below (`Math.round x = ⌊x + 1/2⌋`, rounding halves toward +∞,
  which is exactly Mathlib's `round` on `ℚ`).
* A JS object field that a code path may leave absent (the scorer's
  `deployReady`, `rawScore`, `totalWeight` in the zero-weight branch) is an
  `Option`; `none` is the absent/undefined field.
* JS `null` command values are `Option.none`; a configured command string is
  `some s`.  JS string truthiness (`if (checkConfig.command)`) is
  `s ≠ ""` on the `some` case.
* The check-implementation dispatch table (`CHECK_MODULES` in
  `src/core/runner.js` / the validator-equipped runner) is a parameter
  `impls : CheckImpls`; a theorem quantified over all `impls` therefore
  establishes that the branch in question never consults (never invokes) a
  check implementation.
-/

/-- JS whitespace characters relevant to `String.prototype.trim` on the
ASCII commands this program handles. -/
def jsIsSpace (c : Char) : Bool :=
  c = ' ' || c = '\t' || c = '\n' || c = '\r' || c = '\x0b' || c = '\x0c'

/-- `String.prototype.trim`: drop leading and trailing whitespace. -/
def jsTrim (s : List Char) : List Char :=
  ((s.dropWhile jsIsSpace).reverse.dropWhile jsIsSpace).reverse

/-- ASCII `toLowerCase`, as applied by `createResult` to check names. -/
def jsToLowerChar (c : Char) : Char :=
  if 'A' ≤ c ∧ c ≤ 'Z' then Char.ofNat (c.toNat + 32) else c

/-- `String.prototype.toLowerCase` (ASCII fragment used by check names). -/
def jsToLower (s : String) : String :=
  ⟨s.data.map jsToLowerChar⟩

/-- `Math.round`: round half toward positive infinity. -/
def jsRound (q : ℚ) : ℤ := ⌊q + 1 / 2⌋

theorem jsRound_mono {x y : ℚ} (h : x ≤ y) : jsRound x ≤ jsRound y :=
  Int.floor_le_floor (by linarith)

theorem jsRound_natCast (n : ℕ) : jsRound (n : ℚ) = n := by
  unfold jsRound
  rw [add_comm, Int.floor_add_nat]
  norm_num

theorem jsRound_zero : jsRound 0 = 0 := by
  unfold jsRound
  norm_num

/-- `Array.prototype.reduce((s, x) => s + f(x), init)` is `init` plus the sum
of the mapped list. -/
theorem foldl_add_eq_sum {α : Type} (f : α → ℚ) :
    ∀ (l : List α) (init : ℚ), l.foldl (fun s x => s + f x) init = init + (l.map f).sum := by
  intro l
  induction l with
  | nil => intro init; simp
  | cons a l ih =>
      intro init
      simp [List.foldl_cons, ih (init + f a)]
      ring

/-- The canonical Result shape every check produces
(`src/checks/base-check.js`). -/
structure Result where
  name : String
  key : String
  passed : Bool
  errors : List String
  warnings : List String
  duration : ℕ
  score : ℚ
deriving DecidableEq, Repr

/-- `createResult` from `src/checks/base-check.js`: fills the `key` from the
lowercased name when no key is given (or the given key is falsy). -/
def createResult (name : String) (key : Option String) (passed : Bool)
    (errors warnings : List String) (duration : ℕ) (score : ℚ) : Result :=
  { name := name
    key := match key with
      | some k => if k = "" then jsToLower name else k
      | none => jsToLower name
    passed := passed
    errors := errors
    warnings := warnings
    duration := duration
    score := score }

/-- A configured custom scan pattern: either a bare string shorthand or a
`{regex, label}` object (`checkConfig.patterns` entries). -/
inductive CustomPattern where
  | str (s : String)
  | obj (regex lbl : String)
deriving DecidableEq, Repr

/-- Per-check configuration (`fortress.config.js` check entry). -/
structure CheckConfig where
  enabled : Bool
  command : Option String := none
  weight : ℕ := 0
  patterns : List CustomPattern := []
deriving DecidableEq, Repr

/-- `config.scoring`. -/
structure Scoring where
  deployThreshold : Option ℕ
deriving DecidableEq, Repr

/-- The configuration object consumed by the runner and scorer.  `checks` is
the ordered key/value listing that `Object.entries(config.checks)` yields
(JS object keys are unique, so lookup is first-match). -/
structure Configuration where
  root : String := ""
  checks : List (String × CheckConfig)
  scoring : Option Scoring := none
deriving DecidableEq, Repr

/-- `config.scoring?.deployThreshold` before the `|| 95` default. -/
def deployThresholdRaw (config : Configuration) : Option ℕ :=
  config.scoring.bind (fun s => s.deployThreshold)

/-- `config.scoring?.deployThreshold || 95` — JS `||` also replaces an
explicit `0` by the default 95 (`src/core/scorer.js` line 33). -/
def deployThresholdOrDefault (config : Configuration) : ℕ :=
  match deployThresholdRaw config with
  | none => 95
  | some t => if t = 0 then 95 else t

/-- The scorer's output object.  The `totalWeight == 0` early return builds an
object without `rawScore`, `totalWeight` and `deployReady`; those fields are
`Option`s and are `none` exactly when the JS object omits them. -/
structure ScoreResult where
  score : ℤ
  maxScore : ℕ
  rawScore : Option ℚ
  totalWeight : Option ℚ
  deployReady : Option Bool
  checks : List Result
deriving DecidableEq, Repr

/-- Sum of `weight` over checks whose configuration marks them enabled
(spec-level description of the scorer's `totalWeight`). -/
def enabledTotalWeight (config : Configuration) : ℚ :=
  ((config.checks.filter (fun p => p.2.enabled)).map (fun p => (p.2.weight : ℚ))).sum

/-- Sum of `result.score` over Results whose corresponding check
configuration exists and is enabled (spec-level description of the scorer's
`rawScore`). -/
def enabledRawScore (results : List Result) (config : Configuration) : ℚ :=
  ((results.filter (fun r =>
      match List.lookup r.key config.checks with
      | some c => c.enabled
      | none => false)).map (fun r => r.score)).sum

/-- `calculate` from `src/core/scorer.js`, transliterated: filter the enabled
check entries, reduce their weights, early-return on zero total weight,
otherwise reduce the enabled Results' scores, round the normalized score and
compare against the (defaulted) deploy threshold. -/
def calculate (results : List Result) (config : Configuration) : ScoreResult :=
  let enabledChecks := config.checks.filter (fun p => p.2.enabled)
  let totalWeight : ℚ := enabledChecks.foldl (fun s p => s + (p.2.weight : ℚ)) 0
  if totalWeight = 0 then
    { score := 100, maxScore := 100, rawScore := none, totalWeight := none,
      deployReady := none, checks := results }
  else
    let rawScore : ℚ := (results.filter (fun r =>
        match List.lookup r.key config.checks with
        | some c => c.enabled
        | none => false)).foldl (fun s r => s + r.score) 0
    let normalizedScore : ℤ := jsRound (rawScore / totalWeight * 100)
    { score := normalizedScore
      maxScore := 100
      rawScore := some rawScore
      totalWeight := some totalWeight
      deployReady := some (decide ((deployThresholdOrDefault config : ℤ) ≤ normalizedScore))
      checks := results }

theorem calculate_totalWeight_foldl (config : Configuration) :
    (config.checks.filter (fun p => p.2.enabled)).foldl (fun s p => s + (p.2.weight : ℚ)) 0 =
      enabledTotalWeight config := by
  rw [enabledTotalWeight, foldl_add_eq_sum, zero_add]

theorem calculate_rawScore_foldl (results : List Result) (config : Configuration) :
    (results.filter (fun r =>
        match List.lookup r.key config.checks with
        | some c => c.enabled
        | none => false)).foldl (fun s r => s + r.score) 0 =
      enabledRawScore results config := by
  rw [enabledRawScore, foldl_add_eq_sum, zero_add]

/-- With nonzero total enabled weight, `calculate` takes the normalizing
branch; this spells out the object it builds (shared workhorse lemma). -/
theorem calculate_pos_eq (results : List Result) (config : Configuration)
    (h : enabledTotalWeight config ≠ 0) :
    calculate results config =
      { score := jsRound (enabledRawScore results config / enabledTotalWeight config * 100)
        maxScore := 100
        rawScore := some (enabledRawScore results config)
        totalWeight := some (enabledTotalWeight config)
        deployReady := some (decide ((deployThresholdOrDefault config : ℤ) ≤
          jsRound (enabledRawScore results config / enabledTotalWeight config * 100)))
        checks := results } := by
  have hne : ¬((config.checks.filter (fun p => p.2.enabled)).foldl
      (fun s p => s + (p.2.weight : ℚ)) 0 = 0) := by
    rw [calculate_totalWeight_foldl]; exact h
  unfold calculate
  simp only [hne, if_false]
  rw [calculate_totalWeight_foldl, calculate_rawScore_foldl]

/-- C1: with strictly positive total enabled weight, `calculate` reports
`rawScore` = the sum of `result.score` over exactly the Results whose check
configuration is enabled, `totalWeight` = the sum of `weight` over enabled
checks (computed from the configuration alone, regardless of skips),
`score = round(rawScore / totalWeight × 100)`, and `deployReady = true` iff
`score` is at least the configuration's deploy threshold (default 95). -/
theorem calculate_positive_weight (results : List Result) (config : Configuration)
    (h : 0 < enabledTotalWeight config) :
    (calculate results config).rawScore = some (enabledRawScore results config) ∧
    (calculate results config).totalWeight = some (enabledTotalWeight config) ∧
    (calculate results config).score =
      jsRound (enabledRawScore results config / enabledTotalWeight config * 100) ∧
    ((calculate results config).deployReady = some true ↔
      (deployThresholdOrDefault config : ℤ) ≤ (calculate results config).score) := by
  rw [calculate_pos_eq results config (ne_of_gt h)]
  refine ⟨rfl, rfl, rfl, ?_⟩
  simp [decide_eq_true_eq]

def scorerDemoConfig : Configuration :=
  { checks := [("test", { enabled := true, weight := 10 })]
    scoring := some { deployThreshold := some 95 } }

def scorerDemoResults : List Result :=
  [{ name := "Tests", key := "test", passed := true, errors := [], warnings := [],
     duration := 0, score := 10 }]

theorem calculate_positive_weight_witness :
    (calculate scorerDemoResults scorerDemoConfig).rawScore =
        some (enabledRawScore scorerDemoResults scorerDemoConfig) ∧
    (calculate scorerDemoResults scorerDemoConfig).totalWeight =
        some (enabledTotalWeight scorerDemoConfig) ∧
    (calculate scorerDemoResults scorerDemoConfig).score =
      jsRound (enabledRawScore scorerDemoResults scorerDemoConfig /
        enabledTotalWeight scorerDemoConfig * 100) ∧
    ((calculate scorerDemoResults scorerDemoConfig).deployReady = some true ↔
      (deployThresholdOrDefault scorerDemoConfig : ℤ) ≤
        (calculate scorerDemoResults scorerDemoConfig).score) :=
  calculate_positive_weight scorerDemoResults scorerDemoConfig
    (by simp [enabledTotalWeight, scorerDemoConfig, List.filter])

def allDisabledConfig : Configuration :=
  { checks := [("typescript", { enabled := false, weight := 20 })]
    scoring := some { deployThreshold := some 95 } }

/-- C2 counterexample: with every check disabled (total weight 0) the scorer
does return `score = 100`, but the returned object has no `deployReady`
field at all — `deployReady` is absent (`none`), not `true`.  Downstream
readers of the field (the report CLI's exit code) see a falsy value. -/
theorem calculate_zero_weight_counterexample :
    (calculate [] allDisabledConfig).score = 100 ∧
    (calculate [] allDisabledConfig).deployReady = none ∧
    (calculate [] allDisabledConfig).deployReady ≠ some true := by
  refine ⟨by decide, by decide, by decide⟩

/-- C2 amended: when the enabled checks' weights sum to zero, `calculate`
returns `score = 100` and `maxScore = 100` with the Results echoed, and the
`rawScore`, `totalWeight` and `deployReady` fields are all absent
(`deployReady` is not set to `true`). -/
theorem calculate_zero_weight (results : List Result) (config : Configuration)
    (h : enabledTotalWeight config = 0) :
    calculate results config =
      { score := 100, maxScore := 100, rawScore := none, totalWeight := none,
        deployReady := none, checks := results } := by
  have hz : (config.checks.filter (fun p => p.2.enabled)).foldl
      (fun s p => s + (p.2.weight : ℚ)) 0 = 0 := by
    rw [calculate_totalWeight_foldl]; exact h
  unfold calculate
  simp only [hz, if_true]

theorem calculate_zero_weight_witness :
    calculate [] allDisabledConfig =
      { score := 100, maxScore := 100, rawScore := none, totalWeight := none,
        deployReady := none, checks := [] } :=
  calculate_zero_weight [] allDisabledConfig (by decide)

/-- C10: a missing deploy threshold, or an explicit threshold of `0`, falls
back to the default 95 (JS `0 || 95` is 95): with positive total weight the
scorer compares the normalized score against 95, so a score below 95 is not
deploy-ready even though every score is ≥ the configured threshold 0. -/
theorem calculate_threshold_zero_defaults_to_95 (results : List Result)
    (config : Configuration) (h : 0 < enabledTotalWeight config)
    (ht : deployThresholdRaw config = none ∨ deployThresholdRaw config = some 0) :
    deployThresholdOrDefault config = 95 ∧
    ((calculate results config).score < 95 →
      (calculate results config).deployReady = some false) := by
  have h95 : deployThresholdOrDefault config = 95 := by
    rcases ht with ht | ht <;> simp [deployThresholdOrDefault, ht]
  refine ⟨h95, ?_⟩
  intro hs
  rw [calculate_pos_eq results config (ne_of_gt h)] at hs ⊢
  simp only [ScoreResult.deployReady, Option.some.injEq, decide_eq_false_iff_not]
  rw [h95]
  simp only [ScoreResult.score] at hs
  omega

def zeroThresholdConfig : Configuration :=
  { checks := [("test", { enabled := true, weight := 10 })]
    scoring := some { deployThreshold := some 0 } }

def zeroThresholdResults : List Result :=
  [{ name := "Tests", key := "test", passed := false, errors := ["5 test(s) failed"],
     warnings := [], duration := 0, score := 5 }]

theorem zeroThresholdConfig_weight_pos : 0 < enabledTotalWeight zeroThresholdConfig := by
  simp [enabledTotalWeight, zeroThresholdConfig, List.filter]

theorem zeroThresholdConfig_score :
    (calculate zeroThresholdResults zeroThresholdConfig).score = 50 := by
  rw [calculate_pos_eq zeroThresholdResults zeroThresholdConfig
    (ne_of_gt zeroThresholdConfig_weight_pos)]
  have hr : enabledRawScore zeroThresholdResults zeroThresholdConfig = 5 := by
    simp [enabledRawScore, zeroThresholdResults, zeroThresholdConfig, List.filter,
      List.lookup]
  have hw : enabledTotalWeight zeroThresholdConfig = 10 := by
    simp [enabledTotalWeight, zeroThresholdConfig, List.filter]
  simp only [ScoreResult.score, hr, hw]
  norm_num [jsRound]

theorem calculate_threshold_zero_defaults_to_95_witness :
    deployThresholdOrDefault zeroThresholdConfig = 95 ∧
    (calculate zeroThresholdResults zeroThresholdConfig).deployReady = some false :=
  ⟨(calculate_threshold_zero_defaults_to_95 zeroThresholdResults zeroThresholdConfig
      zeroThresholdConfig_weight_pos (Or.inr rfl)).1,
   (calculate_threshold_zero_defaults_to_95 zeroThresholdResults zeroThresholdConfig
      zeroThresholdConfig_weight_pos (Or.inr rfl)).2
      (by rw [zeroThresholdConfig_score]; norm_num)⟩

/-! ## Command Validator (`validateCommand`, `src/core/agent-runner.js` /
`src/core/command-validator.js`)

Each denylist regex is embedded as the decidable predicate giving its
`RegExp.test` semantics on the trimmed command:
* `/;\s*/` (and `/>\s*/`, `/<\s*/`) match iff the lead character occurs —
  the trailing `\s*` is optional;
* `/\|(?!\|)/` matches iff some `|` is not immediately followed by another
  `|` (the last pipe of any run qualifies);
* `/\beval\b/` etc. match iff the word occurs delimited by non-word
  characters or the string ends (`\w` = ASCII letters, digits, underscore).
-/

/-- Does the character occur in the string? -/
def containsChar (c : Char) (s : List Char) : Bool := s.any (fun x => x = c)

/-- Does the character sequence occur contiguously in the string? -/
def containsSeq (pat : List Char) : List Char → Bool
  | [] => pat.isEmpty
  | c :: rest => pat.isPrefixOf (c :: rest) || containsSeq pat rest

/-- `/\|(?!\|)/`: some `|` not immediately followed by `|`. -/
def pipeNotDoubled : List Char → Bool
  | [] => false
  | c :: rest =>
    if c = '|' then
      match rest with
      | [] => true
      | d :: _ => if d = '|' then pipeNotDoubled rest else true
    else pipeNotDoubled rest

/-- JS regex `\w`: ASCII letter, digit or underscore. -/
def wordChar (c : Char) : Bool := c.isAlpha || c.isDigit || c = '_'

/-- Word `w` occurs at index `i` of `s` with `\b` on both sides. -/
def wholeWordAt (w : List Char) (s : List Char) (i : ℕ) : Bool :=
  ((s.drop i).take w.length == w) &&
  (decide (i = 0) || !wordChar (s.getD (i - 1) ' ')) &&
  !wordChar (s.getD (i + w.length) ' ')

/-- `/\bw\b/.test s`. -/
def wholeWord (w : List Char) (s : List Char) : Bool :=
  (List.range (s.length + 1)).any (fun i => wholeWordAt w s i)

/-- `DANGEROUS_PATTERNS`: the fixed denylist, each entry carrying the JS
pattern source (used verbatim in the rejection reason) and its test. -/
def DANGEROUS_PATTERNS : List (String × (List Char → Bool)) :=
  [(";\\s*", fun t => containsChar ';' t),
   ("&&", fun t => containsSeq ['&', '&'] t),
   ("\\|\\|", fun t => containsSeq ['|', '|'] t),
   ("\\|(?!\\|)", fun t => pipeNotDoubled t),
   ("\\$\\(", fun t => containsSeq ['$', '('] t),
   ("`", fun t => containsChar (Char.ofNat 96) t),
   (">\\s*", fun t => containsChar '>' t),
   ("<\\s*", fun t => containsChar '<' t),
   ("\\$\\\x7b", fun t => containsSeq ['$', Char.ofNat 123] t),
   ("\\beval\\b", fun t => wholeWord "eval".data t),
   ("\\bsource\\b", fun t => wholeWord "source".data t),
   ("\\bexec\\b", fun t => wholeWord "exec".data t)]

/-- `SAFE_PREFIXES`: the known-safe tool invocations. -/
def safePrefixList : List String :=
  ["npx ", "npm ", "yarn ", "pnpm ", "bun ",
   "node ", "tsc ", "eslint ", "biome ",
   "vitest ", "jest ", "mocha "]

/-- The validator's return object; absent fields are `none`. -/
structure ValidationResult where
  valid : Bool
  reason : Option String := none
  knownSafe : Option Bool := none
deriving DecidableEq, Repr

/-- `validateCommand` transliterated: falsy/non-string guard (on a `String`
input only the empty string is falsy), trim, empty-after-trim guard
(JS tests `trimmed.length === 0`), first matching denylist pattern, else
valid with the known-safe-prefix flag. -/
def validateCommand (command : String) : ValidationResult :=
  if command = "" then
    { valid := false, reason := some "Command is empty or not a string" }
  else
    let trimmed := jsTrim command.data
    if trimmed = [] then
      { valid := false, reason := some "Command is empty" }
    else
      match DANGEROUS_PATTERNS.find? (fun p => p.2 trimmed) with
      | some p =>
          { valid := false
            reason := some ("Command contains a disallowed shell operator: " ++ p.1) }
      | none =>
          { valid := true
            knownSafe := some (safePrefixList.any (fun pre => pre.data.isPrefixOf trimmed)) }

/-- The claim's denylist, written out as the claim enumerates it. -/
def denylistHit (t : List Char) : Bool :=
  containsChar ';' t ||
  (containsSeq ['&', '&'] t ||
  (containsSeq ['|', '|'] t ||
  (pipeNotDoubled t ||
  (containsSeq ['$', '('] t ||
  (containsChar (Char.ofNat 96) t ||
  (containsChar '>' t ||
  (containsChar '<' t ||
  (containsSeq ['$', Char.ofNat 123] t ||
  (wholeWord "eval".data t ||
  (wholeWord "source".data t ||
  wholeWord "exec".data t))))))))))

theorem find?_isSome_eq_any {α : Type} (p : α → Bool) (l : List α) :
    (l.find? p).isSome = l.any p := by
  induction l with
  | nil => rfl
  | cons a l ih =>
      by_cases h : p a = true
      · simp [List.find?_cons_of_pos _ h, h]
      · rw [List.find?_cons_of_neg _ h, List.any_cons, ih,
          Bool.eq_false_iff.mpr h, Bool.false_or]

theorem any_dangerous_eq_denylist (t : List Char) :
    DANGEROUS_PATTERNS.any (fun p => p.2 t) = denylistHit t := by
  simp [DANGEROUS_PATTERNS, denylistHit]

theorem validateCommand_valid_eq (s : String) :
    (validateCommand s).valid =
      (!decide (s = "") && (!decide (jsTrim s.data = []) &&
        !denylistHit (jsTrim s.data))) := by
  unfold validateCommand
  by_cases h0 : s = ""
  · simp [h0]
  · simp only [h0, if_false, decide_eq_true_eq]
    by_cases h1 : jsTrim s.data = []
    · simp [h1]
    · simp only [h1, if_false]
      have hfind := find?_isSome_eq_any (fun p => p.2 (jsTrim s.data)) DANGEROUS_PATTERNS
      rw [any_dangerous_eq_denylist] at hfind
      cases hf : DANGEROUS_PATTERNS.find? (fun p => p.2 (jsTrim s.data)) with
      | none =>
          rw [hf] at hfind
          simp only [Option.isSome_none] at hfind
          simp [h0, h1, ← hfind]
      | some p =>
          rw [hf] at hfind
          simp only [Option.isSome_some] at hfind
          simp [h0, h1, ← hfind]

/-- C5: the validator returns `valid = false` exactly when the command is
empty, empty after trimming, or the trimmed command hits one of the twelve
denylist patterns as the claim enumerates them (the non-string case is
vacuous for a `String` input); otherwise it is valid and `knownSafe` reports
only whether the trimmed command starts with a known-safe tool prefix —
validity is fully characterized without reference to `knownSafe`. -/
theorem validateCommand_spec (s : String) :
    ((validateCommand s).valid = false ↔
      (s = "" ∨ jsTrim s.data = [] ∨ denylistHit (jsTrim s.data) = true)) ∧
    ((validateCommand s).valid = true →
      (validateCommand s).knownSafe =
        some (safePrefixList.any (fun pre => pre.data.isPrefixOf (jsTrim s.data)))) := by
  constructor
  · rw [validateCommand_valid_eq]
    by_cases h0 : s = "" <;> by_cases h1 : jsTrim s.data = [] <;>
      cases hd : denylistHit (jsTrim s.data) <;> simp [h0, h1, hd]
  · intro hv
    rw [validateCommand_valid_eq] at hv
    simp only [Bool.and_eq_true, Bool.not_eq_true', decide_eq_false_iff_not,
      Bool.not_eq_true] at hv
    obtain ⟨h0, h1, hd⟩ := hv
    have hfind := find?_isSome_eq_any (fun p => p.2 (jsTrim s.data)) DANGEROUS_PATTERNS
    rw [any_dangerous_eq_denylist, hd] at hfind
    have hnone : DANGEROUS_PATTERNS.find? (fun p => p.2 (jsTrim s.data)) = none :=
      Option.not_isSome_iff_eq_none.mp (by rw [hfind]; simp)
    unfold validateCommand
    simp [h0, h1, hnone]

theorem validateCommand_spec_witness :
    (validateCommand "npx eslint .").valid = true ∧
    (validateCommand "npx eslint .").knownSafe =
      some (safePrefixList.any (fun pre =>
        pre.data.isPrefixOf (jsTrim ("npx eslint .").data))) := by
  have h := (validateCommand_spec "npx eslint .").2
  have hv : (validateCommand "npx eslint .").valid = true := by decide
  exact ⟨hv, h hv⟩

/-! ## Orchestrator (`run`, validator-equipped runner — `src/core/runner.js`
with the command-validation gate; the disabled-check branch is identical in
both runner versions in the repository)

`CheckImpls` abstracts the `CHECK_MODULES` dispatch table; looking a key up
with `Object.hasOwn` is `impls name`.  A conclusion proved for all `impls`
cannot depend on any check implementation, which formalizes "the check
implementation is never invoked". -/

def CheckImpls : Type := String → Option (Configuration → CheckConfig → Result)

/-- JS truthiness of `checkConfig.command`: non-null and non-empty. -/
def commandTruthy : Option String → Bool
  | none => false
  | some c => !(c = "")

/-- One iteration of the runner's `for (const [name, checkConfig] of
Object.entries(config.checks))` loop, transliterated branch for branch. -/
def runOne (impls : CheckImpls) (config : Configuration) (name : String)
    (checkConfig : CheckConfig) : Result :=
  if checkConfig.enabled = false then
    createResult name none true [] [name ++ " check is disabled"] 0 0
  else if checkConfig.command = none ∧ name ≠ "content" ∧ name ≠ "secrets" then
    createResult name none true [] ["No " ++ name ++ " command detected - skipped"] 0 0
  else
    match impls name with
    | none => createResult name none false ["Unknown check: " ++ name] [] 0 0
    | some impl =>
      if name ≠ "content" ∧ name ≠ "secrets" ∧ commandTruthy checkConfig.command = true then
        let v := validateCommand (checkConfig.command.getD "")
        if v.valid = false then
          createResult name none false
            ["Command blocked by security validator: " ++ v.reason.getD "",
             "Rejected command: " ++ checkConfig.command.getD "",
             "Commands must not contain shell operators (;, &&, ||, |, $(), backticks, redirects).",
             "Edit fortress.config.js to use a simple, single command."]
            [] 0 0
        else impl config checkConfig
      else impl config checkConfig

/-- `run(config)`: one Result per configured check entry, in order. -/
def runChecks (impls : CheckImpls) (config : Configuration) : List Result :=
  config.checks.map (fun p => runOne impls config p.1 p.2)

/-- C3: a disabled check synthesizes a passing Result with score 0 and the
"check is disabled" warning; the produced Result is the same for every
dispatch table, i.e. no check implementation is ever invoked, regardless of
any configured command. -/
theorem runOne_disabled (impls impls2 : CheckImpls) (config : Configuration)
    (name : String) (checkConfig : CheckConfig) (h : checkConfig.enabled = false) :
    (runOne impls config name checkConfig).passed = true ∧
    (runOne impls config name checkConfig).score = 0 ∧
    (runOne impls config name checkConfig).errors = [] ∧
    (runOne impls config name checkConfig).warnings = [name ++ " check is disabled"] ∧
    runOne impls config name checkConfig = runOne impls2 config name checkConfig := by
  unfold runOne
  simp [h, createResult]

def lintDemoImpls : CheckImpls :=
  fun n => if n = "lint" then
    some (fun _ _ =>
      { name := "Lint", key := "lint", passed := true, errors := [], warnings := [],
        duration := 1, score := 15 })
  else none

def emptyImpls : CheckImpls := fun _ => none

def plainConfig : Configuration := { checks := [] }

theorem runOne_disabled_witness :
    (runOne lintDemoImpls plainConfig "lint"
      { enabled := false, command := some "npx eslint .", weight := 15 }).passed = true ∧
    (runOne lintDemoImpls plainConfig "lint"
      { enabled := false, command := some "npx eslint .", weight := 15 }).score = 0 ∧
    (runOne lintDemoImpls plainConfig "lint"
      { enabled := false, command := some "npx eslint .", weight := 15 }).errors = [] ∧
    (runOne lintDemoImpls plainConfig "lint"
      { enabled := false, command := some "npx eslint .", weight := 15 }).warnings =
        ["lint" ++ " check is disabled"] ∧
    runOne lintDemoImpls plainConfig "lint"
      { enabled := false, command := some "npx eslint .", weight := 15 } =
    runOne emptyImpls plainConfig "lint"
      { enabled := false, command := some "npx eslint .", weight := 15 } :=
  runOne_disabled lintDemoImpls emptyImpls plainConfig "lint"
    { enabled := false, command := some "npx eslint .", weight := 15 } rfl

/-- An invalid verdict always carries a reason string. -/
theorem validateCommand_invalid_reason (s : String)
    (h : (validateCommand s).valid = false) :
    ∃ reason, (validateCommand s).reason = some reason := by
  unfold validateCommand
  by_cases h0 : s = ""
  · simp [h0]
  · simp only [h0, if_false]
    by_cases h1 : jsTrim s.data = []
    · simp [h1]
    · simp only [h1, if_false]
      cases hf : DANGEROUS_PATTERNS.find? (fun p => p.2 (jsTrim s.data)) with
      | none =>
          exfalso
          unfold validateCommand at h
          simp [h0, h1, hf] at h
      | some p => exact ⟨_, rfl⟩

def markerResult : Result :=
  { name := "MARKER", key := "marker", passed := true, errors := [],
    warnings := [], duration := 42, score := 7 }

def markerImpls : CheckImpls :=
  fun n => if n = "lint" then some (fun _ _ => markerResult) else none

/-- C4 counterexample: an enabled `lint` check configured with the empty
command.  The Command Validator rejects `""` (`valid = false`), yet the
orchestrator's truthiness test `if (... && checkConfig.command)` skips the
validation gate for the empty string and invokes the check implementation:
the produced Result is the implementation's own output (here `markerResult`,
with `passed = true`), not a synthesized failing Result. -/
theorem runOne_rejected_command_counterexample :
    (validateCommand "").valid = false ∧
    runOne markerImpls plainConfig "lint"
      { enabled := true, command := some "", weight := 15 } = markerResult ∧
    (runOne markerImpls plainConfig "lint"
      { enabled := true, command := some "", weight := 15 }).passed = true := by
  refine ⟨by decide, ?_, ?_⟩ <;> rfl

/-- C4 amended: for every enabled, command-bearing check whose configured
command is non-empty and rejected by the Command Validator (and whose key
has an implementation), the runner synthesizes a failing Result whose errors
state the validator's reason and the rejected command verbatim, and the
implementation is never invoked (the Result is the same under every
dispatch table that has an implementation for the key). -/
theorem runOne_rejected_command (impls impls2 : CheckImpls) (config : Configuration)
    (name : String) (checkConfig : CheckConfig) (c : String)
    (f g : Configuration → CheckConfig → Result)
    (he : checkConfig.enabled = true) (hc : checkConfig.command = some c)
    (hne : c ≠ "") (hn1 : name ≠ "content") (hn2 : name ≠ "secrets")
    (hf : impls name = some f) (hg : impls2 name = some g)
    (hv : (validateCommand c).valid = false) :
    (runOne impls config name checkConfig).passed = false ∧
    (∃ reason, (validateCommand c).reason = some reason ∧
      (runOne impls config name checkConfig).errors =
        ["Command blocked by security validator: " ++ reason,
         "Rejected command: " ++ c,
         "Commands must not contain shell operators (;, &&, ||, |, $(), backticks, redirects).",
         "Edit fortress.config.js to use a simple, single command."]) ∧
    runOne impls config name checkConfig = runOne impls2 config name checkConfig := by
  obtain ⟨reason, hr⟩ := validateCommand_invalid_reason c hv
  have hstep : ∀ (im : CheckImpls) (fn : Configuration → CheckConfig → Result),
      im name = some fn →
      runOne im config name checkConfig =
        createResult name none false
          ["Command blocked by security validator: " ++ reason,
           "Rejected command: " ++ c,
           "Commands must not contain shell operators (;, &&, ||, |, $(), backticks, redirects).",
           "Edit fortress.config.js to use a simple, single command."]
          [] 0 0 := by
    intro im fn hfn
    unfold runOne
    rw [he, hc]
    simp only [Bool.true_eq_false, if_false, reduceCtorEq, false_and, hn1, hn2,
      ne_eq, not_false_iff, if_neg, hfn]
    have htr : commandTruthy (some c) = true := by
      simp [commandTruthy, hne]
    simp [hn1, hn2, htr, hv, hr]
  rw [hstep impls f hf, hstep impls2 g hg]
  refine ⟨rfl, ⟨reason, hr, rfl⟩, rfl⟩

theorem runOne_rejected_command_witness :
    (runOne markerImpls plainConfig "lint"
      { enabled := true, command := some "npm test && curl example.com", weight := 15 }).passed
        = false ∧
    (∃ reason, (validateCommand "npm test && curl example.com").reason = some reason ∧
      (runOne markerImpls plainConfig "lint"
        { enabled := true, command := some "npm test && curl example.com", weight := 15 }).errors =
          ["Command blocked by security validator: " ++ reason,
           "Rejected command: " ++ "npm test && curl example.com",
           "Commands must not contain shell operators (;, &&, ||, |, $(), backticks, redirects).",
           "Edit fortress.config.js to use a simple, single command."]) ∧
    runOne markerImpls plainConfig "lint"
      { enabled := true, command := some "npm test && curl example.com", weight := 15 } =
    runOne markerImpls plainConfig "lint"
      { enabled := true, command := some "npm test && curl example.com", weight := 15 } :=
  runOne_rejected_command markerImpls markerImpls plainConfig "lint"
    { enabled := true, command := some "npm test && curl example.com", weight := 15 }
    "npm test && curl example.com" (fun _ _ => markerResult) (fun _ _ => markerResult)
    rfl rfl (by decide) (by decide) (by decide) rfl rfl (by decide)

/-! ## Test check (`run`/`parseTestOutput`, `src/checks/test-check.js`)

The four output-format regexes are embedded as deterministic scanners: each
pattern alternates literal pieces, `\s+` runs and `(\d+)` captures whose
greedy matches are forced (a digit cannot continue a whitespace run and the
literals start with non-space, non-digit characters), so leftmost scanning
with maximal spans gives exactly the JS `String.match` result. -/

/-- Digits of a decimal capture to the number `parseInt` yields. -/
def digitsToNat (ds : List Char) : ℕ :=
  ds.foldl (fun n c => 10 * n + (c.toNat - 48)) 0

/-- Leftmost-position scan: try the position matcher at each suffix. -/
def scanOpt {α : Type} (f : List Char → Option α) : List Char → Option α
  | [] => none
  | c :: rest =>
    match f (c :: rest) with
    | some v => some v
    | none => scanOpt f rest

/-- `/(\d+)\s+word/` anchored at this position. -/
def matchNumWordAt (word : List Char) (s : List Char) : Option ℕ :=
  let ds := s.takeWhile Char.isDigit
  let r1 := s.dropWhile Char.isDigit
  if ds = [] then none
  else
    let ws := r1.takeWhile jsIsSpace
    let r2 := r1.dropWhile jsIsSpace
    if ws = [] then none
    else if word.isPrefixOf r2 then some (digitsToNat ds) else none

/-- `/Tests:\s+(\d+)\s+passed/` anchored at this position. -/
def matchJestPassAt (s : List Char) : Option ℕ :=
  if ("Tests:".data).isPrefixOf s then
    let r1 := (s.drop 6).dropWhile jsIsSpace
    if (s.drop 6).takeWhile jsIsSpace = [] then none
    else
      let ds := r1.takeWhile Char.isDigit
      let r2 := r1.dropWhile Char.isDigit
      if ds = [] then none
      else if r2.takeWhile jsIsSpace = [] then none
      else if ("passed".data).isPrefixOf (r2.dropWhile jsIsSpace) then
        some (digitsToNat ds)
      else none
  else none

/-- `/Tests\s+(\d+)\s+passed\s+\((\d+)\)/` anchored at this position. -/
def matchVitestAt (s : List Char) : Option (ℕ × ℕ) :=
  if ("Tests".data).isPrefixOf s then
    let r1 := s.drop 5
    if r1.takeWhile jsIsSpace = [] then none
    else
      let r2 := r1.dropWhile jsIsSpace
      let d1 := r2.takeWhile Char.isDigit
      let r3 := r2.dropWhile Char.isDigit
      if d1 = [] then none
      else if r3.takeWhile jsIsSpace = [] then none
      else
        let r4 := r3.dropWhile jsIsSpace
        if ("passed".data).isPrefixOf r4 then
          let r5 := r4.drop 6
          if r5.takeWhile jsIsSpace = [] then none
          else
            match r5.dropWhile jsIsSpace with
            | '(' :: r7 =>
              let d2 := r7.takeWhile Char.isDigit
              (match r7.dropWhile Char.isDigit with
               | ')' :: _ => if d2 = [] then none else some (digitsToNat d1, digitsToNat d2)
               | _ => none)
            | _ => none
        else none
  else none

/-- `/lit\s+(\d+)/` anchored at this position (for `# pass` / `# fail`). -/
def matchLitNumAt (lit : List Char) (s : List Char) : Option ℕ :=
  if lit.isPrefixOf s then
    let r1 := s.drop lit.length
    if r1.takeWhile jsIsSpace = [] then none
    else
      let r2 := r1.dropWhile jsIsSpace
      let ds := r2.takeWhile Char.isDigit
      if ds = [] then none else some (digitsToNat ds)
  else none

/-- The parsed pass/fail/total counts.  The fields are `ℤ` because the
vitest branch computes `failed = total - passed` with JS subtraction, which
can go negative on incoherent tool output. -/
structure TestCounts where
  passed : ℤ
  failed : ℤ
  total : ℤ
deriving DecidableEq, Repr

/-- `parseTestOutput`: Jest, then Vitest, then node test runner, then Mocha,
in the source's priority order; `{0,0,0}` if nothing matches. -/
def parseTestOutput (s : List Char) : TestCounts :=
  let jestPass := scanOpt matchJestPassAt s
  let jestFail := scanOpt (matchNumWordAt "failed".data) s
  let jestTotal := scanOpt (matchNumWordAt "total".data) s
  if jestPass.isSome || jestTotal.isSome then
    let passed : ℤ := (jestPass.getD 0 : ℕ)
    let failed : ℤ := (jestFail.getD 0 : ℕ)
    let total : ℤ := match jestTotal with
      | some t => (t : ℤ)
      | none => passed + failed
    ⟨passed, failed, total⟩
  else
    match scanOpt matchVitestAt s with
    | some pt => ⟨(pt.1 : ℤ), (pt.2 : ℤ) - (pt.1 : ℤ), (pt.2 : ℤ)⟩
    | none =>
      match scanOpt (matchLitNumAt "# pass".data) s with
      | some np =>
        let failed : ℤ := ((scanOpt (matchLitNumAt "# fail".data) s).getD 0 : ℕ)
        ⟨(np : ℤ), failed, (np : ℤ) + failed⟩
      | none =>
        match scanOpt (matchNumWordAt "passing".data) s with
        | some mp =>
          let failed : ℤ := ((scanOpt (matchNumWordAt "failing".data) s).getD 0 : ℕ)
          ⟨(mp : ℤ), failed, (mp : ℤ) + failed⟩
        | none => ⟨0, 0, 0⟩

/-- The test check's proportional score (`src/checks/test-check.js` lines
79–82): `passRate = total > 0 ? passed/total : (exitedClean ? 1 : 0)`,
`score = Math.round(weight * passRate)`. -/
def testScore (weight : ℕ) (exitedClean : Bool) (tc : TestCounts) : ℤ :=
  let passRate : ℚ :=
    if 0 < tc.total then (tc.passed : ℚ) / (tc.total : ℚ)
    else if exitedClean then 1 else 0
  jsRound ((weight : ℚ) * passRate)

/-- The test check's score as a function of the tool's combined output. -/
def testRunScore (weight : ℕ) (exitedClean : Bool) (output : String) : ℤ :=
  testScore weight exitedClean (parseTestOutput output.data)

/-- The lint check's score (`src/checks/lint-check.js`):
`Math.max(0, passed ? weight - Math.min(warningCount * 5, weight) : 0)`. -/
def lintScore (weight : ℕ) (passed : Bool) (warningCount : ℕ) : ℤ :=
  max 0 (if passed then (weight : ℤ) - min ((warningCount : ℤ) * 5) (weight : ℤ) else 0)

/-- The dependency-audit score (`src/checks/security-check.js`):
`Math.max(0, weight - (critical + high) * 5)`. -/
def securityScore (weight : ℕ) (critical high : ℕ) : ℤ :=
  max 0 ((weight : ℤ) - ((critical : ℤ) + (high : ℤ)) * 5)

/-- All-or-nothing scoring (typescript/build/content/secrets):
`passed ? weight : 0`. -/
def allOrNothingScore (weight : ℕ) (passed : Bool) : ℤ :=
  if passed then (weight : ℤ) else 0

/-- The security check's Result from the parsed vulnerability counts
(`src/checks/security-check.js` lines 25–47; `parseAuditOutput` and the
subprocess are abstracted into the four counts, which include `low` — the
run body reads `critical`, `high` and `moderate` from them). -/
def securityResult (weight duration critical high moderate low : ℕ) : Result :=
  createResult "Security" (some "security")
    (decide (critical = 0) && decide (high = 0))
    ((if 0 < critical then [toString critical ++ " critical vulnerability(ies)"] else []) ++
     (if 0 < high then [toString high ++ " high vulnerability(ies)"] else []))
    (if 0 < moderate then [toString moderate ++ " moderate vulnerability(ies)"] else [])
    duration
    ((securityScore weight critical high : ℤ) : ℚ)

/-- C6 counterexample: the tool output `"Tests: 2 passed, 1 total"` parses
(via the Jest patterns) to `passed = 2, total = 1`, so with weight 10 the
test check's proportional score is `round(10 × 2/1) = 20`, outside
`[0, weight]`.  The runner's `run` then stores this Result verbatim, so the
claimed invariant fails for the test check. -/
theorem checkScore_range_counterexample :
    parseTestOutput ("Tests: 2 passed, 1 total".data) = ⟨2, 0, 1⟩ ∧
    testRunScore 10 true "Tests: 2 passed, 1 total" = 20 ∧
    ¬(testRunScore 10 true "Tests: 2 passed, 1 total" ≤ (10 : ℤ)) := by
  have hp : parseTestOutput ("Tests: 2 passed, 1 total".data) = ⟨2, 0, 1⟩ := by decide
  have hs : testRunScore 10 true "Tests: 2 passed, 1 total" = 20 := by
    unfold testRunScore
    rw [hp]
    unfold testScore
    norm_num [jsRound]
  exact ⟨hp, hs, by rw [hs]; norm_num⟩

/-- C6 amended: every check score stays within `[0, weight]` — for the test
check under the proviso that the parsed passed count is nonnegative and at
most the parsed total (true of well-formed runner output, but violable by
incoherent tool output, see the counterexample); unconditionally for the
lint penalty score, the security audit score, the all-or-nothing scores, and
the synthesized disabled/skip Results (score 0). -/
theorem checkScore_range (w : ℕ) (ec pass : Bool) (p f t : ℤ) (wc crit high : ℕ)
    (impls : CheckImpls) (config : Configuration) (name : String) (cc : CheckConfig)
    (hp : 0 ≤ p) (hpt : p ≤ t) :
    (0 ≤ testScore w ec ⟨p, f, t⟩ ∧ testScore w ec ⟨p, f, t⟩ ≤ (w : ℤ)) ∧
    (0 ≤ lintScore w pass wc ∧ lintScore w pass wc ≤ (w : ℤ)) ∧
    (0 ≤ securityScore w crit high ∧ securityScore w crit high ≤ (w : ℤ)) ∧
    (0 ≤ allOrNothingScore w pass ∧ allOrNothingScore w pass ≤ (w : ℤ)) ∧
    (cc.enabled = false ∨ (cc.command = none ∧ name ≠ "content" ∧ name ≠ "secrets") →
      (runOne impls config name cc).score = 0) := by
  refine ⟨?_, ?_, ?_, ?_, ?_⟩
  · unfold testScore
    by_cases ht : (0 : ℤ) < t
    · simp only [if_pos ht]
      have htq : (0 : ℚ) < (t : ℚ) := by exact_mod_cast ht
      have hr0 : (0 : ℚ) ≤ (p : ℚ) / (t : ℚ) :=
        div_nonneg (by exact_mod_cast hp) (le_of_lt htq)
      have hr1 : (p : ℚ) / (t : ℚ) ≤ 1 := (div_le_one htq).mpr (by exact_mod_cast hpt)
      constructor
      · have h0 : (0 : ℚ) ≤ (w : ℚ) * ((p : ℚ) / (t : ℚ)) :=
          mul_nonneg (by positivity) hr0
        have := jsRound_mono h0
        rwa [jsRound_zero] at this
      · have hup : (w : ℚ) * ((p : ℚ) / (t : ℚ)) ≤ (w : ℚ) :=
          mul_le_of_le_one_right (by positivity) hr1
        have := jsRound_mono hup
        rwa [jsRound_natCast] at this
    · simp only [if_neg ht]
      cases ec <;> simp only [if_true, if_false, Bool.false_eq_true]
      · rw [mul_zero, jsRound_zero]
        exact ⟨le_refl 0, by exact_mod_cast Int.ofNat_nonneg w⟩
      · rw [mul_one, jsRound_natCast]
        exact ⟨by exact_mod_cast Int.ofNat_nonneg w, le_refl _⟩
  · cases pass
    · simp [lintScore]
    · simp only [lintScore, if_true]
      omega
  · unfold securityScore
    omega
  · cases pass <;> simp [allOrNothingScore]
  · rintro (hd | ⟨hcmd, hn1, hn2⟩)
    · unfold runOne
      simp [hd, createResult]
    · unfold runOne
      by_cases hd : cc.enabled = false
      · simp [hd, createResult]
      · simp [hd, hcmd, hn1, hn2, createResult]

theorem checkScore_range_witness :
    (0 ≤ testScore 25 true ⟨3, 1, 4⟩ ∧ testScore 25 true ⟨3, 1, 4⟩ ≤ (25 : ℤ)) ∧
    (0 ≤ lintScore 25 true 2 ∧ lintScore 25 true 2 ≤ (25 : ℤ)) ∧
    (0 ≤ securityScore 25 1 2 ∧ securityScore 25 1 2 ≤ (25 : ℤ)) ∧
    (0 ≤ allOrNothingScore 25 true ∧ allOrNothingScore 25 true ≤ (25 : ℤ)) ∧
    ((({ enabled := false, weight := 25 } : CheckConfig).enabled = false ∨
      (({ enabled := false, weight := 25 } : CheckConfig).command = none ∧
        "build" ≠ "content" ∧ "build" ≠ "secrets")) →
      (runOne emptyImpls plainConfig "build" { enabled := false, weight := 25 }).score = 0) :=
  checkScore_range 25 true true 3 1 4 2 1 2 emptyImpls plainConfig "build"
    { enabled := false, weight := 25 } (by norm_num) (by norm_num)

/-- C7 counterexample: three `low` findings and nothing else.  The claim
says low counts are surfaced as warnings; the check's run body never reads
the `low` count, so the Result carries no warning (and no error) at all. -/
theorem security_low_not_surfaced_counterexample :
    (securityResult 10 0 0 0 0 3).warnings = [] ∧
    (securityResult 10 0 0 0 0 3).errors = [] ∧
    (securityResult 10 0 0 0 0 3).passed = true := by
  refine ⟨rfl, rfl, rfl⟩

/-- C7 amended: the audit score is `weight − 5×(critical+high)` floored at
0; the check passes iff critical and high are both zero (errors appear for
exactly those two tiers); a positive moderate count is surfaced as the sole
warning while the low count is ignored entirely (the Result does not depend
on it); neither moderate nor low ever causes failure or affects the
score. -/
theorem securityResult_props (w d c h m l : ℕ) :
    (securityResult w d c h m l).score = ((securityScore w c h : ℤ) : ℚ) ∧
    ((securityResult w d c h m l).passed = true ↔ (c = 0 ∧ h = 0)) ∧
    ((securityResult w d c h m l).errors = [] ↔ (c = 0 ∧ h = 0)) ∧
    (securityResult w d c h m l).warnings =
      (if 0 < m then [toString m ++ " moderate vulnerability(ies)"] else []) ∧
    securityResult w d c h m l = securityResult w d c h m 0 := by
  refine ⟨rfl, ?_, ?_, rfl, rfl⟩
  · unfold securityResult createResult
    simp [Bool.and_eq_true, decide_eq_true_eq]
  · unfold securityResult createResult
    by_cases hc : c = 0 <;> by_cases hh : h = 0 <;>
      simp [hc, hh, Nat.pos_of_ne_zero]

/-- C8 counterexample: with weight 10 the pass ratio strictly increases from
1/2 (1 of 2 tests) to 51/100 (51 of 100 tests), yet `Math.round` maps both
proportional scores to 5 — the increase is not strict. -/
theorem testScore_strict_mono_counterexample :
    ((1 : ℚ) / 2 < 51 / 100) ∧
    testScore 10 true ⟨1, 1, 2⟩ = 5 ∧
    testScore 10 true ⟨51, 49, 100⟩ = 5 := by
  refine ⟨by norm_num, ?_, ?_⟩ <;>
    · unfold testScore
      norm_num [jsRound]

/-- C8 amended: with the weight held fixed, a (weakly) larger pass ratio
never decreases the test check's proportional score; the increase need not
be strict because of rounding. -/
theorem testScore_ratio_mono (w : ℕ) (p t p2 t2 f f2 : ℤ)
    (ht : 0 < t) (ht2 : 0 < t2)
    (h : (p : ℚ) / (t : ℚ) ≤ (p2 : ℚ) / (t2 : ℚ)) :
    testScore w true ⟨p, f, t⟩ ≤ testScore w true ⟨p2, f2, t2⟩ := by
  unfold testScore
  simp only [if_pos ht, if_pos ht2]
  exact jsRound_mono (mul_le_mul_of_nonneg_left h (by positivity))

theorem testScore_ratio_mono_witness :
    testScore 10 true ⟨1, 1, 2⟩ ≤ testScore 10 true ⟨3, 1, 4⟩ :=
  testScore_ratio_mono 10 1 2 3 4 1 1 (by norm_num) (by norm_num) (by norm_num)

/-! ## Secrets / content scan pattern guard (`src/checks/secrets-check.js`
lines 89–115 and `isReDoSRisk` lines 187–207; the content check carries the
identical guard)

Each `isReDoSRisk` heuristic regex has the shape "a parenthesized group of
non-`)` characters whose body satisfies some condition, followed by a
quantifier character" (plus the back-reference heuristic); the group body is
forced to end at the first `)` after the `(`, so a deterministic scan gives
the `RegExp.test` semantics.  Regex compilation (`new RegExp`) and the file
scan are abstracted as the parameters `compileOk` and `scanErrors`: the
theorems hold for every instantiation. -/

/-- A quantifier character: `+`, `*` or `{`. -/
def quantChar (c : Char) : Bool := c = '+' || c = '*' || c = Char.ofNat 123

/-- `/\(BODY\)Q/` anchored here: a group of non-`)` characters whose body
satisfies `cond`, immediately followed by a quantifier character. -/
def groupBodyThenQuant (cond : List Char → Bool) (s : List Char) : Bool :=
  match s with
  | '(' :: rest =>
    (match rest.dropWhile (fun c => !(c = ')')) with
     | ')' :: q :: _ => cond (rest.takeWhile (fun c => !(c = ')'))) && quantChar q
     | _ => false)
  | _ => false

/-- `/\\[1-9][+*{]/` anchored here. -/
def backrefQuantAt : List Char → Bool
  | '\\' :: d :: q :: _ => ('1' ≤ d && d ≤ '9') && quantChar q
  | _ => false

/-- Body condition for `/\([^)]*\.\s*[+*][^)]*\)[+*{]/`: a dot followed
(after optional whitespace) by `+` or `*`. -/
def dotThenQuant : List Char → Bool
  | [] => false
  | c :: rest =>
    (c = '.' &&
      (match rest.dropWhile jsIsSpace with
       | q :: _ => q = '+' || q = '*'
       | [] => false)) || dotThenQuant rest

/-- `/\(\?[=!<][^)]*[+*][^)]*\)[+*{]/` anchored here. -/
def lookaroundQuantAt (s : List Char) : Bool :=
  match s with
  | '(' :: '?' :: k :: rest =>
    (k = '=' || k = '!' || k = '<') &&
    (match rest.dropWhile (fun c => !(c = ')')) with
     | ')' :: q :: _ =>
        (rest.takeWhile (fun c => !(c = ')'))).any (fun c => c = '+' || c = '*') && quantChar q
     | _ => false)
  | _ => false

/-- Scan every position for an anchored match. -/
def scanAny (f : List Char → Bool) : List Char → Bool
  | [] => false
  | c :: rest => f (c :: rest) || scanAny f rest

/-- `isReDoSRisk`, heuristic by heuristic in source order: nested
quantifiers, quantified alternation, quantifier on an already-quantified
group, quantified back-references, quantified dot-wildcards inside a group,
quantified lookaround. -/
def isReDoSRisk (s : List Char) : Bool :=
  scanAny (groupBodyThenQuant (fun b => b.any (fun c => c = '+' || c = '*'))) s ||
  scanAny (groupBodyThenQuant (fun b => b.any (fun c => c = '|'))) s ||
  scanAny (groupBodyThenQuant (fun b => b.any (fun c => c = '+' || c = '*' || c = Char.ofNat 125))) s ||
  scanAny backrefQuantAt s ||
  scanAny (groupBodyThenQuant dotThenQuant) s ||
  scanAny lookaroundQuantAt s

/-- Extracting `source`/`label` from one configured pattern entry: a string
is its own label; an object needs truthy (non-empty) `regex` and `label`;
anything else is skipped silently (`continue`). -/
def extractSrcLabel : CustomPattern → Option (String × String)
  | CustomPattern.str s => some (s, s)
  | CustomPattern.obj r l => if r ≠ "" ∧ l ≠ "" then some (r, l) else none

/-- `Pattern "L" exceeds 200 chars — skipped for safety`. -/
def lengthSkipMsg (lbl : String) : String :=
  "Pattern \"" ++ lbl ++ "\" exceeds 200 chars — skipped for safety"

/-- `Pattern "L" has ReDoS risk (dangerous backtracking) — skipped`. -/
def redosSkipMsg (lbl : String) : String :=
  "Pattern \"" ++ lbl ++ "\" has ReDoS risk (dangerous backtracking) — skipped"

/-- `Invalid custom pattern "L"` (the JS message also appends the regex
engine's error text, abstracted here). -/
def invalidPatternMsg (lbl : String) : String :=
  "Invalid custom pattern \"" ++ lbl ++ "\""

/-- The custom-pattern vetting loop of the secrets check (lines 89–115):
length guard, then ReDoS guard, then compilation (abstracted by
`compileOk`); returns the accepted `(source, label)` pairs and the warnings,
both in loop order. -/
def vetCustomPatterns (compileOk : String → Bool) :
    List CustomPattern → List (String × String) × List String
  | [] => ([], [])
  | p :: rest =>
    match extractSrcLabel p with
    | none => vetCustomPatterns compileOk rest
    | some sl =>
      let vp := vetCustomPatterns compileOk rest
      if 200 < sl.1.length then
        (vp.1, lengthSkipMsg sl.2 :: vp.2)
      else if isReDoSRisk sl.1.data then
        (vp.1, redosSkipMsg sl.2 :: vp.2)
      else if compileOk sl.1 then
        (sl :: vp.1, vp.2)
      else
        (vp.1, invalidPatternMsg sl.2 :: vp.2)

/-- The secrets check's Result (lines 159–170) as a function of the vetted
pattern set: `builtins` stands for the compiled `BUILT_IN_PATTERNS`,
`scanErrors` for the file-walk/matching loop over the compiled set, which
produces the error lines. -/
def secretsResult (compileOk : String → Bool)
    (scanErrors : List (String × String) → List String)
    (builtins : List (String × String)) (cc : CheckConfig) (d : ℕ) : Result :=
  let vp := vetCustomPatterns compileOk cc.patterns
  let compiled := builtins ++ vp.1
  let errors := scanErrors compiled
  createResult "Secrets Detection" (some "secrets")
    errors.isEmpty
    (errors.take 30)
    (if 30 < errors.length then
      ["... and " ++ toString (errors.length - 30) ++ " more secrets found"]
     else vp.2)
    d
    (if errors.isEmpty then (cc.weight : ℚ) else 0)

/-- Every accepted custom pattern passed both guards. -/
theorem vet_accepted_guarded (compileOk : String → Bool) (ps : List CustomPattern) :
    ∀ e ∈ (vetCustomPatterns compileOk ps).1,
      e.1.length ≤ 200 ∧ isReDoSRisk e.1.data = false := by
  induction ps with
  | nil => intro e he; simp [vetCustomPatterns] at he
  | cons p rest ih =>
      intro e he
      unfold vetCustomPatterns at he
      cases hx : extractSrcLabel p with
      | none => rw [hx] at he; exact ih e he
      | some sl =>
          rw [hx] at he
          simp only at he
          by_cases h1 : 200 < sl.1.length
          · rw [if_pos h1] at he; exact ih e he
          · rw [if_neg h1] at he
            by_cases h2 : isReDoSRisk sl.1.data = true
            · rw [if_pos h2] at he; exact ih e he
            · rw [if_neg h2] at he
              by_cases h3 : compileOk sl.1 = true
              · rw [if_pos h3] at he
                rcases List.mem_cons.mp he with he | he
                · subst he
                  exact ⟨by omega, Bool.eq_false_iff.mpr h2⟩
                · exact ih e he
              · rw [if_neg h3] at he; exact ih e he

/-- A guard-rejected pattern leaves its warning in the vetted output. -/
theorem vet_warning_of_bad (compileOk : String → Bool) (ps : List CustomPattern)
    (p : CustomPattern) (src lbl : String)
    (hp : p ∈ ps) (hx : extractSrcLabel p = some (src, lbl))
    (hbad : 200 < src.length ∨ isReDoSRisk src.data = true) :
    lengthSkipMsg lbl ∈ (vetCustomPatterns compileOk ps).2 ∨
    redosSkipMsg lbl ∈ (vetCustomPatterns compileOk ps).2 := by
  induction ps with
  | nil => simp at hp
  | cons q rest ih =>
      rcases List.mem_cons.mp hp with hq | hq
      · subst hq
        unfold vetCustomPatterns
        rw [hx]
        simp only
        by_cases h1 : 200 < src.length
        · rw [if_pos h1]
          exact Or.inl (List.mem_cons_self _ _)
        · have h2 : isReDoSRisk src.data = true := by
            rcases hbad with hb | hb
            · exact absurd hb h1
            · exact hb
          rw [if_neg h1, if_pos h2]
          exact Or.inr (List.mem_cons_self _ _)
      · have ihq := ih hq
        unfold vetCustomPatterns
        cases hxq : extractSrcLabel q with
        | none => exact ihq
        | some sl =>
            simp only
            by_cases h1 : 200 < sl.1.length
            · rw [if_pos h1]
              rcases ihq with hm | hm
              · exact Or.inl (List.mem_cons_of_mem _ hm)
              · exact Or.inr (List.mem_cons_of_mem _ hm)
            · rw [if_neg h1]
              by_cases h2 : isReDoSRisk sl.1.data = true
              · rw [if_pos h2]
                rcases ihq with hm | hm
                · exact Or.inl (List.mem_cons_of_mem _ hm)
                · exact Or.inr (List.mem_cons_of_mem _ hm)
              · rw [if_neg h2]
                by_cases h3 : compileOk sl.1 = true
                · rw [if_pos h3]; exact ihq
                · rw [if_neg h3]
                  rcases ihq with hm | hm
                  · exact Or.inl (List.mem_cons_of_mem _ hm)
                  · exact Or.inr (List.mem_cons_of_mem _ hm)

/-- C9: a configured custom pattern whose source exceeds 200 characters or
trips the catastrophic-backtracking heuristics (such as `"(a+)+"`) is
excluded from the compiled pattern set — no pattern with that source is ever
accepted, for any regex compiler and any file contents — and its skip
warning is recorded; when the scan over the remaining compiled patterns
finds nothing, the Result still passes at full weight and carries those
warnings (a warning, not a hard failure). -/
theorem secrets_pattern_guard (compileOk : String → Bool)
    (scanErrors : List (String × String) → List String)
    (builtins : List (String × String)) (cc : CheckConfig) (d : ℕ)
    (p : CustomPattern) (src lbl : String)
    (hp : p ∈ cc.patterns) (hx : extractSrcLabel p = some (src, lbl))
    (hbad : 200 < src.length ∨ isReDoSRisk src.data = true) :
    (∀ l2, (src, l2) ∉ (vetCustomPatterns compileOk cc.patterns).1) ∧
    (lengthSkipMsg lbl ∈ (vetCustomPatterns compileOk cc.patterns).2 ∨
     redosSkipMsg lbl ∈ (vetCustomPatterns compileOk cc.patterns).2) ∧
    (scanErrors (builtins ++ (vetCustomPatterns compileOk cc.patterns).1) = [] →
      (secretsResult compileOk scanErrors builtins cc d).passed = true ∧
      (secretsResult compileOk scanErrors builtins cc d).score = (cc.weight : ℚ) ∧
      (secretsResult compileOk scanErrors builtins cc d).warnings =
        (vetCustomPatterns compileOk cc.patterns).2) := by
  refine ⟨?_, vet_warning_of_bad compileOk cc.patterns p src lbl hp hx hbad, ?_⟩
  · intro l2 hmem
    have hg := vet_accepted_guarded compileOk cc.patterns (src, l2) hmem
    rcases hbad with hb | hb
    · have hg1 : src.length ≤ 200 := hg.1
      omega
    · have hg2 : isReDoSRisk src.data = false := hg.2
      rw [hg2] at hb
      exact Bool.false_ne_true hb
  · intro hempty
    unfold secretsResult createResult
    simp [hempty]

theorem secrets_pattern_guard_witness :
    isReDoSRisk ("(a+)+".data) = true ∧
    (∀ l2, ("(a+)+", l2) ∉
      (vetCustomPatterns (fun _ => true) [CustomPattern.str "(a+)+"]).1) ∧
    (lengthSkipMsg "(a+)+" ∈
      (vetCustomPatterns (fun _ => true) [CustomPattern.str "(a+)+"]).2 ∨
     redosSkipMsg "(a+)+" ∈
      (vetCustomPatterns (fun _ => true) [CustomPattern.str "(a+)+"]).2) ∧
    ((secretsResult (fun _ => true) (fun _ => []) []
        { enabled := true, weight := 10, patterns := [CustomPattern.str "(a+)+"] } 0).passed
        = true ∧
     (secretsResult (fun _ => true) (fun _ => []) []
        { enabled := true, weight := 10, patterns := [CustomPattern.str "(a+)+"] } 0).score
        = ((10 : ℕ) : ℚ) ∧
     (secretsResult (fun _ => true) (fun _ => []) []
        { enabled := true, weight := 10, patterns := [CustomPattern.str "(a+)+"] } 0).warnings
        = (vetCustomPatterns (fun _ => true) [CustomPattern.str "(a+)+"]).2) := by
  have h := secrets_pattern_guard (fun _ => true) (fun _ => []) []
    { enabled := true, weight := 10, patterns := [CustomPattern.str "(a+)+"] } 0
    (CustomPattern.str "(a+)+") "(a+)+" "(a+)+"
    (List.mem_cons_self _ _) rfl (Or.inr (by decide))
  exact ⟨by decide, h.1, h.2.1, h.2.2 rfl⟩
